import Mathlib

/-!
Shallow embedding of the sandboxed terminal-session manager
(`src/backend/src/utils/TerminalManager.js`) of the TeachGrid repository.

Strings are modelled as Lean `String`s; the JavaScript string operations the
source uses (`trim`, `split(' ')`, `startsWith`, `endsWith`, `slice`) are
re-implemented character-by-character on `List Char` so that every definition
is executable and kernel-reducible.  Node's `path.resolve`, `path.join` and
`path.relative` are modelled in POSIX form (absolute paths, `/`-separated,
`.`/`..` normalization), which is the form used by the specification's
examples.  Filesystem contents, the user's home directory, the OS temporary
directory, spawn success and the port-scan command output are supplied by an
explicit `Env` record, since they are ambient inputs of the JavaScript code.
-/

/-- JavaScript's `\s` / `trim` whitespace class (WhiteSpace ∪ LineTerminator). -/
def isJsWs (c : Char) : Bool :=
  c = ' ' || c = '\t' || c = '\n' || c = '\r' || c = '\x0b' || c = '\x0c' ||
  c = '\u00A0' || c = '\u1680' || ('\u2000' ≤ c && c ≤ '\u200A') ||
  c = '\u2028' || c = '\u2029' || c = '\u202F' || c = '\u205F' ||
  c = '\u3000' || c = '\uFEFF'

/-- JavaScript line terminators (the characters `.` does not match). -/
def isLineTerm (c : Char) : Bool :=
  c = '\n' || c = '\r' || c = '\u2028' || c = '\u2029'

/-- JS `String.prototype.trim` on a character list. -/
def jsTrimCs (cs : List Char) : List Char :=
  ((cs.dropWhile isJsWs).reverse.dropWhile isJsWs).reverse

/-- JS `String.prototype.trim`. -/
def jsTrim (s : String) : String := ⟨jsTrimCs s.data⟩

/-- JS `String.prototype.startsWith`. -/
def jsStartsWith (s pre : String) : Bool := pre.data.isPrefixOf s.data

/-- JS `String.prototype.split(sep)` for a single-character separator:
    splits on every occurrence, keeping empty pieces. -/
def splitOnChar (sep : Char) : List Char → List (List Char)
  | [] => [[]]
  | c :: rest =>
    let r := splitOnChar sep rest
    if c = sep then [] :: r
    else
      match r with
      | [] => [[c]]
      | p :: ps => (c :: p) :: ps

/-- Join pieces back with a single-character separator (JS `Array.join`). -/
def joinWith (sep : Char) : List (List Char) → List Char
  | [] => []
  | [p] => p
  | p :: ps => p ++ sep :: joinWith sep ps

/-- Path components of a POSIX path string: split on `/`, dropping empties. -/
def splitSlash (cs : List Char) : List (List Char) :=
  (splitOnChar '/' cs).filter (fun p => ¬ p = [])

/-- POSIX path normalization over components: `.` is dropped, `..` pops the
    last accumulated component (and is dropped at the root). -/
def normComps : List (List Char) → List (List Char) → List (List Char)
  | acc, [] => acc
  | acc, c :: rest =>
    if c = ['.'] then normComps acc rest
    else if c = ['.', '.'] then normComps acc.dropLast rest
    else normComps (acc ++ [c]) rest

/-- Render an absolute path from its components. -/
def joinAbs (cs : List (List Char)) : List Char := '/' :: joinWith '/' cs

/-- Node `path.resolve(cwd, target)` (POSIX), assuming `cwd` is absolute:
    an absolute `target` is normalized on its own, otherwise the
    concatenation `cwd / target` is normalized. -/
def resolvePath (cwd target : String) : String :=
  if target.data.head? = some '/' then
    ⟨joinAbs (normComps [] (splitSlash target.data))⟩
  else
    ⟨joinAbs (normComps [] (splitSlash cwd.data ++ splitSlash target.data))⟩

/-- Node `path.join(a, b)` (POSIX), assuming `a` is absolute. -/
def pathJoin (a b : String) : String :=
  ⟨joinAbs (normComps [] (splitSlash (a.data ++ '/' :: b.data)))⟩

/-- Drop the common leading components of two component lists. -/
def dropCommon : List (List Char) → List (List Char) → List (List Char) × List (List Char)
  | a :: as, b :: bs => if a = b then dropCommon as bs else (a :: as, b :: bs)
  | as, bs => (as, bs)

/-- Node `path.relative(f, t)` (POSIX) for absolute `f`, `t`: one `..` per
    remaining component of `f` after the common prefix, then `t`'s remainder. -/
def relativePath (f t : String) : String :=
  let fc := normComps [] (splitSlash f.data)
  let tc := normComps [] (splitSlash t.data)
  let p := dropCommon fc tc
  ⟨joinWith '/' (p.1.map (fun _ => ['.', '.']) ++ p.2)⟩

/-!  Output filter: the always-on step of `filterOutput` (line 35 of the
source) is the global regex replacement `/\x1b\]0;[^\x07]*\x07/g → ''`,
removing ANSI window-title escape sequences. -/

/-- The `[^\x07]*\x07` tail of the title regex: skip to the first BEL,
    returning the remainder after it, or `none` if no BEL follows. -/
def consumeTitle : List Char → Option (List Char)
  | [] => none
  | c :: r => if c = '\x07' then some r else consumeTitle r

/-- Whether the list starts with a full title-sequence match
    `ESC ] 0 ; [^\x07]* \x07`; returns the remainder after the match. -/
def titleMatch : List Char → Option (List Char)
  | c1 :: c2 :: c3 :: c4 :: rest =>
    if c1 = '\x1b' ∧ c2 = ']' ∧ c3 = '0' ∧ c4 = ';' then consumeTitle rest
    else none
  | _ => none

/-- Fuel-indexed scanner for the global replacement: at each position, remove
    a title-sequence match if one starts there, otherwise keep the character
    and continue.  Fuel `≥` the list length never runs out. -/
def stripAuxF : Nat → List Char → List Char
  | 0, l => l
  | _ + 1, [] => []
  | f + 1, c :: rest =>
    match titleMatch (c :: rest) with
    | some r => stripAuxF f r
    | none => c :: stripAuxF f rest

/-- The always-on output-filter step: `data.replace(/\x1b\]0;[^\x07]*\x07/g, '')`. -/
def stripTitleSeqs (s : String) : String := ⟨stripAuxF s.data.length s.data⟩

/-!  Port scanner (`scanPorts`, lines 41–67): each output line is matched
against the regex `/:(\d+)\s+.*LISTENING/`; matched ports above 1024 other
than 3000/3001 are collected into a `Set` (insertion order, duplicates
collapsed). -/

/-- Existence of a match for the regex tail `\s+.*LISTENING` on `cs`:
    a nonempty whitespace run, then line-terminator-free filler, then the
    literal `LISTENING`. -/
def listeningAfter (cs : List Char) : Bool :=
  (List.range (cs.length + 1)).any fun q =>
    decide (0 < q) && (cs.take q).all isJsWs &&
      ((List.range (cs.length + 1)).any fun r =>
        decide (q ≤ r) && ((cs.drop q).take (r - q)).all (fun c => ! isLineTerm c) &&
          ((cs.drop r).take 9 == "LISTENING".data))

/-- Try to match `:(\d+)\s+.*LISTENING` starting exactly at the head of the
    list; returns the digit group. -/
def portMatchHere : List Char → Option (List Char)
  | ':' :: rest =>
    let ds := rest.takeWhile Char.isDigit
    let after := rest.dropWhile Char.isDigit
    if ds ≠ [] && listeningAfter after then some ds else none
  | _ => none

/-- Leftmost match of `:(\d+)\s+.*LISTENING` in the line (JS `String.match`). -/
def findPortMatch : List Char → Option (List Char)
  | [] => none
  | c :: rest =>
    match portMatchHere (c :: rest) with
    | some ds => some ds
    | none => findPortMatch rest

/-- JS `parseInt` on a nonempty decimal digit string. -/
def parseDigits (ds : List Char) : Nat :=
  ds.foldl (fun n c => 10 * n + (c.toNat - '0'.toNat)) 0

/-- The parsed listening-port number of one scan-output line, if any. -/
def portOfLine (line : List Char) : Option Nat :=
  (findPortMatch line).map parseDigits

/-- The exclusion filter applied before a port is added to the set
    (`port > 1024 && port !== 3000 && port !== 3001`). -/
def portAccept (p : Nat) : Bool :=
  decide (1024 < p) && decide (p ≠ 3000) && decide (p ≠ 3001)

/-- JS `Set.add` followed by `Array.from`: append if not already present. -/
def addPort (acc : List Nat) (p : Nat) : List Nat :=
  if acc.contains p then acc else acc ++ [p]

/-- Process one line of scan output into the accumulated port set. -/
def scanLine (acc : List Nat) (line : List Char) : List Nat :=
  match portOfLine line with
  | some p => if portAccept p then addPort acc p else acc
  | none => acc

/-- `scanPorts` result list: `none` models `exec` failing (resolve `[]`);
    otherwise the stdout is split on newlines and folded through the
    per-line parser and exclusion filter. -/
def scanPortsList : Option String → List Nat
  | none => []
  | some out => (splitOnChar '\n' out.data).foldl scanLine []

/-!  Data model: sessions, observable events, and the ambient environment. -/

/-- Truthiness of the `start` and `dev` fields of `pkg.scripts`. -/
structure Scripts where
  hasStart : Bool
  hasDev : Bool
deriving DecidableEq

/-- A parsed `package.json`: only the `scripts` member is inspected. -/
structure Pkg where
  scripts : Option Scripts
deriving DecidableEq

/-- Ambient inputs of `TerminalManager`: platform, `os.tmpdir()`,
    `os.homedir()`, filesystem readability (`fs.access`), the manifest file
    at a given path (`none`: absent; `some none`: present but unparseable;
    `some (some p)`: parsed), whether `pty.spawn` succeeds, the thrown
    message when it does not, and the port-scan command's stdout
    (`none`: `exec` reported an error). -/
structure Env where
  win32 : Bool
  tmpdir : String
  homedir : String
  accessOk : String → Bool
  pkgFile : String → Option (Option Pkg)
  spawnOk : Bool
  spawnErrMsg : String
  scanOut : Option String

/-- Per-client session state (`{ cwd, projectRoot, pty, initialOutputReceived }`). -/
structure Session where
  cwd : String
  projectRoot : String
  pty : Option Unit
  initialOutputReceived : Bool
deriving DecidableEq

/-- Observable effects on the transport and on the attached process. -/
inductive Ev where
  | output (s : String)
  | cwdEv (s : String)
  | statusEv (busy : Bool)
  | portsEv (ps : List Nat)
  | ptyWriteEv (data : String)
  | ptyResizeEv (cols rows : Nat)
  | ptyKillEv
  | spawnEv (shell : String) (args : List String) (cwd : String)
deriving DecidableEq

/-- The registry: `socketId → session`, modelled as an association list. -/
def Sessions := List (String × Session)

instance : DecidableEq Sessions := by
  unfold Sessions; infer_instance

/-- Replace the session stored under `sid` (mutation of the looked-up object). -/
def setSession : Sessions → String → Session → Sessions
  | [], _, _ => []
  | (k, v) :: rest, sid, s =>
    (if k = sid then (k, s) else (k, v)) :: setSession rest sid s

/-- Remove the entry under `sid` (`delete this.sessions[socketId]`). -/
def eraseSession : Sessions → String → Sessions
  | [], _ => []
  | (k, v) :: rest, sid =>
    if k = sid then eraseSession rest sid else (k, v) :: eraseSession rest sid

/-- The workspace root allocated for a user id
    (`path.join(os.tmpdir(), 'teachgrid-workspace', safeUserId)`). -/
def workspaceRoot (env : Env) (uid : String) : String :=
  pathJoin (pathJoin env.tmpdir "teachgrid-workspace") uid

/-- `createSession(socketId, socket, userId)`: idempotent lazy creation with
    default cwd = projectRoot = the per-user workspace root; a missing or
    empty `userId` falls back to `'anonymous'`.  Emits the initial (empty)
    working-directory notification on actual creation. -/
def createSession (env : Env) (m : Sessions) (sid : String) (userId : Option String) :
    Sessions × Session × List Ev :=
  match List.lookup sid m with
  | some s => (m, s, [])
  | none =>
    let safeUserId := match userId with
      | some u => if u = "" then "anonymous" else u
      | none => "anonymous"
    let root := workspaceRoot env safeUserId
    let s : Session := ⟨root, root, none, false⟩
    ((sid, s) :: m, s, [Ev.cwdEv ""])

/-- The fixed Windows-CMD alias table. -/
def aliasLookup : String → Option String
  | "ls" => some "dir /b"
  | "dir" => some "dir /b"
  | "ll" => some "dir"
  | "cat" => some "type"
  | "rm" => some "del"
  | "clear" => some "cls"
  | "pwd" => some "echo %cd%"
  | _ => none

/-- Alias resolution: the first space-delimited token is substituted if it is
    in the table, and the parts are re-joined with single spaces. -/
def applyAlias (cmd : String) : String :=
  match splitOnChar ' ' cmd.data with
  | [] => cmd
  | p0 :: rest =>
    match aliasLookup ⟨p0⟩ with
    | some a => ⟨joinWith ' ' (a.data :: rest)⟩
    | none => cmd

/-- The informational notice emitted by the `npm start` interceptor. -/
def rewriteNotice : String :=
  "💡 Intelligence: No \x27start\x27 script found. Redirecting to \x27npm run dev\x27...\r\n"

/-- The smart command interceptor: exactly `npm start`, with a manifest at
    `cwd/package.json` that parses and has a truthy `scripts.dev` but no
    truthy `scripts.start`, becomes `npm run dev` plus one notice; in every
    other case (missing manifest, parse error, other scripts) the command is
    unchanged and nothing is emitted. -/
def npmRewrite (env : Env) (s : Session) (cmd : String) : String × List Ev :=
  if cmd = "npm start" then
    match env.pkgFile (pathJoin s.cwd "package.json") with
    | none => (cmd, [])
    | some none => (cmd, [])
    | some (some pkg) =>
      match pkg.scripts with
      | none => (cmd, [])
      | some sc =>
        if ! sc.hasStart && sc.hasDev then ("npm run dev", [Ev.output rewriteNotice])
        else (cmd, [])
  else (cmd, [])

/-- Strip one pair of surrounding double quotes (`slice(1, -1)`), if present. -/
def quoteStrip (t : List Char) : List Char :=
  if t.head? = some '"' ∧ t.getLast? = some '"' then (t.drop 1).dropLast else t

/-- If the (post-alias, post-rewrite) command is `cd` or `cd <arg>`, the
    `cd` target: the first argument, defaulting to the home directory when
    absent or empty, after quote stripping. -/
def cdTargetOf (homedir : String) (t2 : String) : Option String :=
  if "cd ".data.isPrefixOf t2.data ∨ t2 = "cd" then
    let args := (splitOnChar ' ' t2.data).drop 1
    let raw := match args.head? with
      | some a => if a = [] then homedir.data else a
      | none => homedir.data
    some ⟨quoteStrip raw⟩
  else none

/-- The sandbox denial notice. -/
def denialMsg : String :=
  "Error: Access denied (Sandbox Restriction). Cannot navigate outside project root.\r\n"

/-- The `cd` failure notice for an unreadable or missing target. -/
def noSuchMsg (t : String) : String :=
  "cd: no such file or directory: " ++ t ++ "\r\n"

/-- The ANSI clear sequence emitted for `cls`/`clear`. -/
def clearSeq : String := "\x1b[2J\x1b[0f"

/-- The platform shell (`cmd.exe` on win32, `bash` otherwise). -/
def shellOf (env : Env) : String := if env.win32 then "cmd.exe" else "bash"

/-- The shell's argument vector for a command. -/
def shellArgs (env : Env) (cmd : String) : List String :=
  if env.win32 then ["/C", cmd] else ["-c", cmd]

/-- The spawn-failure notice. -/
def spawnFailMsg (env : Env) : String :=
  "Failed to execute: " ++ env.spawnErrMsg ++ "\r\n"

/-- `execute(socketId, command, socket)`: ensure the session exists, trim,
    resolve aliases, apply the `npm start` interceptor, then handle `cd`
    internally (sandbox check before the readability check), handle
    `cls`/`clear` internally, and otherwise spawn the platform shell on the
    command with the session's cwd. -/
def execute (env : Env) (m : Sessions) (sid : String) (command : String) :
    Sessions × List Ev :=
  match createSession env m sid none with
  | (m1, s, evs0) =>
    let trimmed := jsTrim command
    if trimmed = "" then (m1, evs0)
    else
      let t1 := applyAlias trimmed
      match npmRewrite env s t1 with
      | (t2, evs1) =>
        match cdTargetOf env.homedir t2 with
        | some tgt =>
          let newPath := resolvePath s.cwd tgt
          if ¬ jsStartsWith newPath s.projectRoot then
            (m1, evs0 ++ evs1 ++ [Ev.output denialMsg])
          else if ¬ env.accessOk newPath then
            (m1, evs0 ++ evs1 ++ [Ev.output (noSuchMsg tgt)])
          else
            (setSession m1 sid { s with cwd := newPath },
             evs0 ++ evs1 ++ [Ev.cwdEv (relativePath s.projectRoot newPath)])
        | none =>
          if t2 = "cls" ∨ t2 = "clear" then
            (m1, evs0 ++ evs1 ++ [Ev.output clearSeq])
          else if env.spawnOk then
            (setSession m1 sid { s with pty := some (), initialOutputReceived := false },
             evs0 ++ evs1 ++ [Ev.spawnEv (shellOf env) (shellArgs env t2) s.cwd,
                              Ev.statusEv true])
          else
            (m1, evs0 ++ evs1 ++ [Ev.output (spawnFailMsg env)])

/-- `write(socketId, data)`: forward the bytes to the attached process's
    input stream, if the session exists and a process is attached. -/
def writeIn (m : Sessions) (sid : String) (data : String) : List Ev :=
  match List.lookup sid m with
  | some s => if s.pty.isSome then [Ev.ptyWriteEv data] else []
  | none => []

/-- `handleInput(socketId, data, socket)`: ensure the session exists; if a
    process is attached, forward the bytes to it, otherwise hand the line to
    the command interpreter (`execute`). -/
def handleInput (env : Env) (m : Sessions) (sid : String) (data : String) :
    Sessions × List Ev :=
  match createSession env m sid none with
  | (m1, s, evs0) =>
    if s.pty.isSome then (m1, evs0 ++ writeIn m1 sid data)
    else
      match execute env m1 sid data with
      | (m2, evs2) => (m2, evs0 ++ evs2)

/-- `resize(socketId, cols, rows)`: forwarded to the process when attached. -/
def resizeTerm (m : Sessions) (sid : String) (cols rows : Nat) : List Ev :=
  match List.lookup sid m with
  | some s => if s.pty.isSome then [Ev.ptyResizeEv cols rows] else []
  | none => []

/-- `kill(socketId)`: kill the attached process if any, then remove the
    session from the registry; nothing happens for an unknown id. -/
def killSession (m : Sessions) (sid : String) : Sessions × List Ev :=
  match List.lookup sid m with
  | some s =>
    (eraseSession m sid, if s.pty.isSome then [Ev.ptyKillEv] else [])
  | none => (m, [])

/-- The `onExit` callback of a spawned process: detach the handle, emit the
    idle status, and report a port scan. -/
def processExit (env : Env) (m : Sessions) (sid : String) : Sessions × List Ev :=
  match List.lookup sid m with
  | some s =>
    if s.pty.isSome then
      (setSession m sid { s with pty := none },
       [Ev.statusEv false, Ev.portsEv (scanPortsList env.scanOut)])
    else (m, [])
  | none => (m, [])

/-- Session-facing operations driving the per-session state machine. -/
inductive Op where
  | input (data : String)
  | exitPty
  | resizeOp (cols rows : Nat)

/-- One step of the state machine for the session keyed by `sid`. -/
def stepOp (env : Env) (sid : String) (m : Sessions) : Op → Sessions × List Ev
  | Op.input d => handleInput env m sid d
  | Op.exitPty => processExit env m sid
  | Op.resizeOp c r => (m, resizeTerm m sid c r)

/-- Run a sequence of operations, accumulating the emitted events. -/
def runOps (env : Env) (sid : String) : Sessions → List Op → Sessions × List Ev
  | m, [] => (m, [])
  | m, op :: rest =>
    match stepOp env sid m op with
    | (m1, evs1) =>
      match runOps env sid m1 rest with
      | (m2, evs2) => (m2, evs1 ++ evs2)


/-- The boolean status carried by a status event, if it is one. -/
def statusOf : Ev → Option Bool
  | Ev.statusEv b => some b
  | _ => none

/-- The busy flag the client ends up with after a stream of events:
    the last busy/idle status notification wins. -/
def busyFold (b : Bool) (evs : List Ev) : Bool :=
  evs.foldl (fun acc e => match statusOf e with | some v => v | none => acc) b

/-- Whether a process handle is attached to the session keyed by `sid`. -/
def ptyAttached (m : Sessions) (sid : String) : Bool :=
  match List.lookup sid m with
  | some s => s.pty.isSome
  | none => false

/-- The sandbox invariant over the whole registry: every session's current
    working directory has its project root as a (string) prefix. -/
def SessInv (m : Sessions) : Prop :=
  ∀ k s, List.lookup k m = some s → jsStartsWith s.cwd s.projectRoot = true

/-- Sample port-scan output whose lines carry listening ports 80, 3000,
    3001 and 5173. -/
def scanSample : String :=
  "  TCP    0.0.0.0:80      0.0.0.0:0    LISTENING    400\n" ++
  "  TCP    0.0.0.0:3000    0.0.0.0:0    LISTENING    401\n" ++
  "  TCP    0.0.0.0:3001    0.0.0.0:0    LISTENING    402\n" ++
  "  TCP    0.0.0.0:5173    0.0.0.0:0    LISTENING    403"

/-- A concrete environment for witnesses: POSIX platform, `/tmp` tempdir,
    `/root` home, every path readable, no manifest anywhere, spawns succeed. -/
def envW : Env :=
  { win32 := false
    tmpdir := "/tmp"
    homedir := "/root"
    accessOk := fun _ => true
    pkgFile := fun _ => none
    spawnOk := true
    spawnErrMsg := "spawn failed"
    scanOut := some scanSample }

/-- The session allocated for the anonymous user under `envW`. -/
def anonSession : Session :=
  ⟨"/tmp/teachgrid-workspace/anonymous", "/tmp/teachgrid-workspace/anonymous", none, false⟩

/-- A session whose project root is the per-user directory
    `/tmp/teachgrid-workspace/user`. -/
def userSession : Session :=
  ⟨"/tmp/teachgrid-workspace/user", "/tmp/teachgrid-workspace/user", none, false⟩

/-- The anonymous session after a successful `cd sub` under `envW`. -/
def anonSubSession : Session :=
  ⟨"/tmp/teachgrid-workspace/anonymous/sub", "/tmp/teachgrid-workspace/anonymous", none, false⟩

/-- A session with an attached process handle. -/
def busySession : Session := ⟨"/a", "/a", some (), false⟩

/-- `envW` with a manifest at the anonymous workspace declaring only a
`dev` script. -/
def envDev : Env :=
  { envW with
      pkgFile := fun p =>
        if p = "/tmp/teachgrid-workspace/anonymous/package.json"
        then some (some ⟨some ⟨false, true⟩⟩) else none }

/-- `envW` with a manifest declaring both `start` and `dev` scripts. -/
def envBoth : Env :=
  { envW with pkgFile := fun _ => some (some ⟨some ⟨true, true⟩⟩) }

/-- `envW` with a manifest that exists but fails to parse. -/
def envBad : Env :=
  { envW with pkgFile := fun _ => some none }

/-- `envW` with no readable paths (every `fs.access` fails). -/
def envNoFs : Env := { envW with accessOk := fun _ => false }

/-!  Basic lemmas about the registry operations. -/

theorem isPrefixOf_self (l : List Char) : l.isPrefixOf l = true := by
  rw [List.isPrefixOf_iff_prefix]

theorem jsStartsWith_self (s : String) : jsStartsWith s s = true :=
  isPrefixOf_self s.data

theorem lookup_cons_self (sid : String) (v : Session) (m : Sessions) :
    List.lookup sid ((sid, v) :: m) = some v := by
  simp [List.lookup_cons]

theorem lookup_cons_ne (k kp : String) (v : Session) (m : Sessions)
    (h : ¬ k = kp) : List.lookup k ((kp, v) :: m) = List.lookup k m := by
  have h' : (k == kp) = false := by simp [h]
  simp [List.lookup_cons, h']

theorem lookup_setSession_self (m : Sessions) (sid : String) (s : Session) :
    List.lookup sid (setSession m sid s) = (List.lookup sid m).map fun _ => s := by
  induction m with
  | nil => rfl
  | cons p rest ih =>
    obtain ⟨k, v⟩ := p
    by_cases hk : k = sid
    · subst hk
      simp [setSession, lookup_cons_self]
    · simp only [setSession, if_neg hk]
      rw [lookup_cons_ne sid k v (setSession rest sid s) (Ne.symm hk)]
      rw [lookup_cons_ne sid k v rest (Ne.symm hk)]
      exact ih

theorem lookup_setSession_ne (m : Sessions) (sid k : String) (s : Session)
    (h : ¬ k = sid) :
    List.lookup k (setSession m sid s) = List.lookup k m := by
  induction m with
  | nil => rfl
  | cons p rest ih =>
    obtain ⟨kp, v⟩ := p
    by_cases hkp : kp = sid
    · subst hkp
      simp only [setSession, if_pos]
      rw [lookup_cons_ne k kp s _ h, lookup_cons_ne k kp v rest h]
      exact ih
    · simp only [setSession, if_neg hkp]
      by_cases hkk : k = kp
      · subst hkk
        rw [lookup_cons_self, lookup_cons_self]
      · rw [lookup_cons_ne k kp v _ hkk, lookup_cons_ne k kp v rest hkk]
        exact ih

theorem lookup_erase_self (m : Sessions) (sid : String) :
    List.lookup sid (eraseSession m sid) = none := by
  induction m with
  | nil => rfl
  | cons p rest ih =>
    obtain ⟨k, v⟩ := p
    by_cases hk : k = sid
    · subst hk
      simpa [eraseSession] using ih
    · simp only [eraseSession, if_neg hk]
      rw [lookup_cons_ne sid k v _ (Ne.symm hk)]
      exact ih

theorem createSession_of_some (env : Env) (m : Sessions) (sid : String)
    (u : Option String) (s : Session) (h : List.lookup sid m = some s) :
    createSession env m sid u = (m, s, []) := by
  simp [createSession, h]

theorem createSession_of_none (env : Env) (m : Sessions) (sid : String)
    (h : List.lookup sid m = none) :
    createSession env m sid none =
      ((sid, ⟨workspaceRoot env "anonymous", workspaceRoot env "anonymous", none, false⟩) :: m,
       ⟨workspaceRoot env "anonymous", workspaceRoot env "anonymous", none, false⟩,
       [Ev.cwdEv ""]) := by
  simp [createSession, h]

theorem createSession_lookup (env : Env) (m : Sessions) (sid : String)
    (u : Option String) :
    List.lookup sid (createSession env m sid u).1 = some (createSession env m sid u).2.1 := by
  unfold createSession
  cases h : List.lookup sid m with
  | some s => simpa using h
  | none => simp [lookup_cons_self]

theorem createSession_lookup_ne (env : Env) (m : Sessions) (sid k : String)
    (u : Option String) (h : ¬ k = sid) :
    List.lookup k (createSession env m sid u).1 = List.lookup k m := by
  unfold createSession
  cases hl : List.lookup sid m with
  | some s => simp
  | none => simp [lookup_cons_ne k sid _ m h]

theorem createSession_evs (env : Env) (m : Sessions) (sid : String)
    (u : Option String) :
    (createSession env m sid u).2.2 = [] ∨ (createSession env m sid u).2.2 = [Ev.cwdEv ""] := by
  unfold createSession
  cases List.lookup sid m <;> simp

theorem createSession_pty (env : Env) (m : Sessions) (sid : String)
    (u : Option String) :
    (createSession env m sid u).2.1.pty.isSome = ptyAttached m sid := by
  unfold createSession ptyAttached
  cases List.lookup sid m <;> simp

theorem npmRewrite_cases (env : Env) (s : Session) (cmd t2 : String)
    (evs : List Ev) (h : npmRewrite env s cmd = (t2, evs)) :
    (t2 = cmd ∧ evs = []) ∨
    (t2 = "npm run dev" ∧ evs = [Ev.output rewriteNotice] ∧ cmd = "npm start") := by
  unfold npmRewrite at h
  split at h
  · rename_i hcmd
    split at h
    · cases h
      exact Or.inl ⟨rfl, rfl⟩
    · cases h
      exact Or.inl ⟨rfl, rfl⟩
    · split at h
      · cases h
        exact Or.inl ⟨rfl, rfl⟩
      · split at h
        · cases h
          exact Or.inr ⟨rfl, rfl, hcmd⟩
        · cases h
          exact Or.inl ⟨rfl, rfl⟩
  · cases h
    exact Or.inl ⟨rfl, rfl⟩

theorem execute_cd_general (env : Env) (m : Sessions) (sid : String) (s : Session)
    (cmd t2 tgt : String) (evs1 : List Ev)
    (hs : List.lookup sid m = some s)
    (ht : ¬ jsTrim cmd = "")
    (hr : npmRewrite env s (applyAlias (jsTrim cmd)) = (t2, evs1))
    (hc : cdTargetOf env.homedir t2 = some tgt) :
    execute env m sid cmd =
      if ¬ jsStartsWith (resolvePath s.cwd tgt) s.projectRoot then
        (m, evs1 ++ [Ev.output denialMsg])
      else if ¬ env.accessOk (resolvePath s.cwd tgt) then
        (m, evs1 ++ [Ev.output (noSuchMsg tgt)])
      else
        (setSession m sid { s with cwd := resolvePath s.cwd tgt },
         evs1 ++ [Ev.cwdEv (relativePath s.projectRoot (resolvePath s.cwd tgt))]) := by
  unfold execute
  rw [createSession_of_some env m sid none s hs]
  simp only [if_neg ht, hr, hc, List.nil_append]

theorem execute_other_general (env : Env) (m : Sessions) (sid : String) (s : Session)
    (cmd t2 : String) (evs1 : List Ev)
    (hs : List.lookup sid m = some s)
    (ht : ¬ jsTrim cmd = "")
    (hr : npmRewrite env s (applyAlias (jsTrim cmd)) = (t2, evs1))
    (hc : cdTargetOf env.homedir t2 = none) :
    execute env m sid cmd =
      if t2 = "cls" ∨ t2 = "clear" then (m, evs1 ++ [Ev.output clearSeq])
      else if env.spawnOk then
        (setSession m sid { s with pty := some (), initialOutputReceived := false },
         evs1 ++ [Ev.spawnEv (shellOf env) (shellArgs env t2) s.cwd, Ev.statusEv true])
      else (m, evs1 ++ [Ev.output (spawnFailMsg env)]) := by
  unfold execute
  rw [createSession_of_some env m sid none s hs]
  simp only [if_neg ht, hr, hc, List.nil_append]

theorem execute_empty (env : Env) (m : Sessions) (sid : String) (s : Session)
    (cmd : String) (hs : List.lookup sid m = some s) (ht : jsTrim cmd = "") :
    execute env m sid cmd = (m, []) := by
  unfold execute
  rw [createSession_of_some env m sid none s hs]
  simp only [ht, if_pos]

theorem cdTargetOf_npm_run_dev (h : String) : cdTargetOf h "npm run dev" = none := by
  unfold cdTargetOf
  rw [if_neg]
  intro hor
  revert hor
  decide

theorem cd_evs1_nil (env : Env) (s : Session) (cmd t2 tgt : String) (evs1 : List Ev)
    (hr : npmRewrite env s (applyAlias (jsTrim cmd)) = (t2, evs1))
    (hc : cdTargetOf env.homedir t2 = some tgt) : evs1 = [] := by
  rcases npmRewrite_cases env s _ t2 evs1 hr with ⟨_, h2⟩ | ⟨h1, _, _⟩
  · exact h2
  · rw [h1, cdTargetOf_npm_run_dev] at hc
    cases hc

theorem sessInv_setSession (m : Sessions) (sid : String) (s' : Session)
    (hm : SessInv m) (hs' : jsStartsWith s'.cwd s'.projectRoot = true) :
    SessInv (setSession m sid s') := by
  intro k s hk
  by_cases hkk : k = sid
  · subst hkk
    rw [lookup_setSession_self] at hk
    cases hl : List.lookup k m with
    | none => rw [hl] at hk; cases hk
    | some v => rw [hl] at hk; cases hk; exact hs'
  · rw [lookup_setSession_ne m sid k s' hkk] at hk
    exact hm k s hk

theorem sessInv_createSession (env : Env) (m : Sessions) (sid : String)
    (u : Option String) (hm : SessInv m) : SessInv (createSession env m sid u).1 := by
  unfold createSession
  cases hl : List.lookup sid m with
  | some s => simpa using hm
  | none =>
    simp only
    intro k s hk
    by_cases hkk : k = sid
    · subst hkk
      rw [lookup_cons_self] at hk
      cases hk
      exact jsStartsWith_self _
    · rw [lookup_cons_ne k sid _ m hkk] at hk
      exact hm k s hk

theorem sessInv_execute (env : Env) (m : Sessions) (sid : String) (cmd : String)
    (hm : SessInv m) : SessInv (execute env m sid cmd).1 := by
  have hinv := sessInv_createSession env m sid none hm
  have hlook := createSession_lookup env m sid none
  unfold execute
  cases hcs : createSession env m sid none with
  | mk m1 p =>
    cases p with
    | mk s1 evs0 =>
      rw [hcs] at hinv hlook
      simp only at hinv hlook
      simp only []
      by_cases ht : jsTrim cmd = ""
      · rw [if_pos ht]
        exact hinv
      · rw [if_neg ht]
        cases hnr : npmRewrite env s1 (applyAlias (jsTrim cmd)) with
        | mk t2 evs1 =>
          cases hct : cdTargetOf env.homedir t2 with
          | some tgt =>
            simp only []
            by_cases hden : ¬ jsStartsWith (resolvePath s1.cwd tgt) s1.projectRoot
            · rw [if_pos hden]
              exact hinv
            · rw [if_neg hden]
              by_cases hacc : ¬ env.accessOk (resolvePath s1.cwd tgt)
              · rw [if_pos hacc]
                exact hinv
              · rw [if_neg hacc]
                exact sessInv_setSession m1 sid _ hinv
                  (not_not.mp hden)
          | none =>
            simp only []
            by_cases hcl : t2 = "cls" ∨ t2 = "clear"
            · rw [if_pos hcl]
              exact hinv
            · rw [if_neg hcl]
              by_cases hsp : env.spawnOk
              · rw [if_pos hsp]
                exact sessInv_setSession m1 sid _ hinv (hinv sid s1 hlook)
              · rw [if_neg hsp]
                exact hinv

theorem sessInv_handleInput (env : Env) (m : Sessions) (sid : String) (d : String)
    (hm : SessInv m) : SessInv (handleInput env m sid d).1 := by
  have hinv := sessInv_createSession env m sid none hm
  unfold handleInput
  cases hcs : createSession env m sid none with
  | mk m1 p =>
    cases p with
    | mk s1 evs0 =>
      rw [hcs] at hinv
      simp only at hinv
      by_cases hp : s1.pty.isSome
      · simp only [if_pos hp]
        exact hinv
      · simp only [if_neg hp]
        have := sessInv_execute env m1 sid d hinv
        cases hex : execute env m1 sid d with
        | mk m2 evs2 =>
          rw [hex] at this
          exact this

theorem sessInv_processExit (env : Env) (m : Sessions) (sid : String)
    (hm : SessInv m) : SessInv (processExit env m sid).1 := by
  unfold processExit
  cases hl : List.lookup sid m with
  | none => exact hm
  | some s =>
    by_cases hp : s.pty.isSome
    · simp only [if_pos hp]
      exact sessInv_setSession m sid _ hm (hm sid s hl)
    · simp only [if_neg hp]
      exact hm

theorem sessInv_stepOp (env : Env) (sid : String) (m : Sessions) (op : Op)
    (hm : SessInv m) : SessInv (stepOp env sid m op).1 := by
  cases op with
  | input d => exact sessInv_handleInput env m sid d hm
  | exitPty => exact sessInv_processExit env m sid hm
  | resizeOp c r => exact hm

theorem sessInv_runOps (env : Env) (sid : String) (m : Sessions) (ops : List Op)
    (hm : SessInv m) : SessInv (runOps env sid m ops).1 := by
  induction ops generalizing m with
  | nil => exact hm
  | cons op rest ih =>
    have h1 := sessInv_stepOp env sid m op hm
    unfold runOps
    cases hst : stepOp env sid m op with
    | mk m1 evs1 =>
      rw [hst] at h1
      simp only at h1
      simp only []
      cases hrn : runOps env sid m1 rest with
      | mk m2 evs2 =>
        simp only []
        have := ih m1 h1
        rw [hrn] at this
        simp only at this
        exact this

/-!  Claim theorems. -/

/-- C1: for every registry satisfying the sandbox invariant and every
sequence of dispatched inputs, process exits and resizes, every session's
`cwd` keeps its `projectRoot` as a string prefix; and a `cd` command whose
resolved target does not have `projectRoot` as a prefix always produces
exactly the access-denied notice and leaves the registry — hence `cwd` —
unchanged. -/
theorem cd_sandbox_invariant :
    (∀ (env : Env) (sid : String) (m : Sessions) (ops : List Op),
      SessInv m → SessInv (runOps env sid m ops).1) ∧
    (∀ (env : Env) (m : Sessions) (sid : String) (s : Session)
       (cmd t2 tgt : String) (evs1 : List Ev),
      List.lookup sid m = some s →
      ¬ jsTrim cmd = "" →
      npmRewrite env s (applyAlias (jsTrim cmd)) = (t2, evs1) →
      cdTargetOf env.homedir t2 = some tgt →
      jsStartsWith (resolvePath s.cwd tgt) s.projectRoot = false →
      execute env m sid cmd = (m, [Ev.output denialMsg])) := by
  constructor
  · exact fun env sid m ops hm => sessInv_runOps env sid m ops hm
  · intro env m sid s cmd t2 tgt evs1 hs ht hr hc hden
    have hnil := cd_evs1_nil env s cmd t2 tgt evs1 hr hc
    subst hnil
    rw [execute_cd_general env m sid s cmd t2 tgt [] hs ht hr hc]
    rw [if_pos (by simp [hden])]
    simp

/-- Witness for C1 at concrete inputs: after `cd sub` the anonymous
session's cwd still extends its root, and `cd ../../../etc` is denied
without any state change. -/
theorem cd_sandbox_invariant_witness :
    jsStartsWith anonSubSession.cwd anonSubSession.projectRoot = true ∧
    execute envW [("s1", anonSession)] "s1" "cd ../../../etc"
      = ([("s1", anonSession)], [Ev.output denialMsg]) := by
  constructor
  · have h := cd_sandbox_invariant.1 envW "s1" []
      [Op.input "cd sub", Op.input "cd ../../../etc"]
      (fun k s hk => by cases hk)
    exact h "s1" anonSubSession (by decide)
  · exact cd_sandbox_invariant.2 envW [("s1", anonSession)] "s1" anonSession
      "cd ../../../etc" "cd ../../../etc" "../../../etc" [] (by decide) (by decide)
      (by decide) (by decide) (by decide)

/-- C2: the containment check is a plain string-prefix comparison on the
resolved absolute path — any resolved target whose string begins with the
`projectRoot` string passes it and proceeds to the readability check; in
particular the sibling `/tmp/teachgrid-workspace/user-evil` is accepted for
root `/tmp/teachgrid-workspace/user` although it is not inside that
directory tree. -/
theorem sandbox_check_string_prefix :
    (∀ (env : Env) (m : Sessions) (sid : String) (s : Session)
       (cmd t2 tgt : String) (evs1 : List Ev),
      List.lookup sid m = some s →
      ¬ jsTrim cmd = "" →
      npmRewrite env s (applyAlias (jsTrim cmd)) = (t2, evs1) →
      cdTargetOf env.homedir t2 = some tgt →
      jsStartsWith (resolvePath s.cwd tgt) s.projectRoot = true →
      execute env m sid cmd =
        if env.accessOk (resolvePath s.cwd tgt) then
          (setSession m sid { s with cwd := resolvePath s.cwd tgt },
           [Ev.cwdEv (relativePath s.projectRoot (resolvePath s.cwd tgt))])
        else (m, [Ev.output (noSuchMsg tgt)])) ∧
    jsStartsWith "/tmp/teachgrid-workspace/user-evil" "/tmp/teachgrid-workspace/user" = true ∧
    ¬ ("/tmp/teachgrid-workspace/user-evil" = "/tmp/teachgrid-workspace/user" ∨
       jsStartsWith "/tmp/teachgrid-workspace/user-evil"
         ("/tmp/teachgrid-workspace/user" ++ "/") = true) := by
  refine ⟨?_, by decide, by decide⟩
  intro env m sid s cmd t2 tgt evs1 hs ht hr hc hpre
  have hnil := cd_evs1_nil env s cmd t2 tgt evs1 hr hc
  subst hnil
  rw [execute_cd_general env m sid s cmd t2 tgt [] hs ht hr hc]
  rw [if_neg (by simp [hpre])]
  by_cases hacc : env.accessOk (resolvePath s.cwd tgt)
  · rw [if_neg (by simp [hacc]), if_pos hacc]
    simp
  · rw [if_pos (by simp [hacc]), if_neg hacc]
    simp

/-- Witness for C2: under `envW`, `cd ../user-evil` from the `user` root is
accepted by the check and sets cwd to the sibling directory. -/
theorem sandbox_check_string_prefix_witness :
    execute envW [("s1", userSession)] "s1" "cd ../user-evil"
      = ([("s1", { userSession with cwd := "/tmp/teachgrid-workspace/user-evil" })],
         [Ev.cwdEv "../user-evil"]) := by
  have h := sandbox_check_string_prefix.1 envW [("s1", userSession)] "s1" userSession
    "cd ../user-evil" "cd ../user-evil" "../user-evil" [] (by decide) (by decide)
    (by decide) (by decide) (by decide)
  rw [h]
  decide

/-- C9: terminate kills the attached process when present and removes the
session; a second terminate on the same identity, or one on an unknown
identity, leaves the registry unchanged and emits nothing. -/
theorem kill_idempotent :
    (∀ (m : Sessions) (sid : String),
      killSession (killSession m sid).1 sid = ((killSession m sid).1, [])) ∧
    (∀ (m : Sessions) (sid : String), List.lookup sid m = none →
      killSession m sid = (m, [])) ∧
    (∀ (m : Sessions) (sid : String) (s : Session), List.lookup sid m = some s →
      killSession m sid =
        (eraseSession m sid, if s.pty.isSome then [Ev.ptyKillEv] else []) ∧
      List.lookup sid (killSession m sid).1 = none) := by
  refine ⟨?_, ?_, ?_⟩
  · intro m sid
    cases hl : List.lookup sid m with
    | none =>
      have h0 : killSession m sid = (m, []) := by simp [killSession, hl]
      rw [h0]
      exact h0
    | some s =>
      have h0 : (killSession m sid).1 = eraseSession m sid := by simp [killSession, hl]
      rw [h0]
      simp [killSession, lookup_erase_self]
  · intro m sid hl
    simp [killSession, hl]
  · intro m sid s hl
    refine ⟨by simp [killSession, hl], ?_⟩
    have h0 : (killSession m sid).1 = eraseSession m sid := by simp [killSession, hl]
    rw [h0]
    exact lookup_erase_self m sid

/-- Witness for C9 at concrete registries: killing a busy session emits one
kill and empties the registry; killing again, or killing an unknown id,
does nothing. -/
theorem kill_idempotent_witness :
    killSession [("s1", busySession)] "s1" = ([], [Ev.ptyKillEv]) ∧
    killSession (killSession [("s1", busySession)] "s1").1 "s1"
      = ((killSession [("s1", busySession)] "s1").1, []) ∧
    killSession ([] : Sessions) "s2" = ([], []) := by
  refine ⟨?_, ?_, ?_⟩
  · have h := (kill_idempotent.2.2 [("s1", busySession)] "s1" busySession (by decide)).1
    rw [h]
    decide
  · exact kill_idempotent.1 [("s1", busySession)] "s1"
  · exact kill_idempotent.2.1 [] "s2" (by decide)

theorem scanLine_inv (acc : List Nat) (line : List Char)
    (hn : acc.Nodup) (hp : ∀ p ∈ acc, 1024 < p ∧ p ≠ 3000 ∧ p ≠ 3001) :
    (scanLine acc line).Nodup ∧
      ∀ p ∈ scanLine acc line, 1024 < p ∧ p ≠ 3000 ∧ p ≠ 3001 := by
  unfold scanLine
  cases portOfLine line with
  | none => exact ⟨hn, hp⟩
  | some p =>
    simp only []
    by_cases ha : portAccept p
    · rw [if_pos ha]
      unfold addPort
      by_cases hc : acc.contains p
      · rw [if_pos hc]
        exact ⟨hn, hp⟩
      · rw [if_neg hc]
        have hmem : p ∉ acc := by simpa using hc
        have hP : 1024 < p ∧ p ≠ 3000 ∧ p ≠ 3001 := by
          have := ha
          simp only [portAccept, Bool.and_eq_true, decide_eq_true_eq] at this
          exact ⟨this.1.1, this.1.2, this.2⟩
        constructor
        · simp [List.nodup_append, hn, hmem]
        · intro q hq
          rcases List.mem_append.mp hq with hq | hq
          · exact hp q hq
          · simp only [List.mem_singleton] at hq
            subst hq
            exact hP
    · rw [if_neg ha]
      exact ⟨hn, hp⟩

theorem scanFold_inv (lines : List (List Char)) (acc : List Nat)
    (hn : acc.Nodup) (hp : ∀ p ∈ acc, 1024 < p ∧ p ≠ 3000 ∧ p ≠ 3001) :
    (lines.foldl scanLine acc).Nodup ∧
      ∀ p ∈ lines.foldl scanLine acc, 1024 < p ∧ p ≠ 3000 ∧ p ≠ 3001 := by
  induction lines generalizing acc with
  | nil => exact ⟨hn, hp⟩
  | cons l rest ih =>
    have h := scanLine_inv acc l hn hp
    exact ih (scanLine acc l) h.1 h.2

/-- C8: the port scan collapses duplicates (the reported list is duplicate
free), excludes every port at or below 1024 and the reserved ports
3000/3001; the sample output carrying ports 80, 3000, 3001, 5173 reports
exactly `[5173]`; and a failed enumeration command reports `[]`. -/
theorem port_scan_filter :
    scanPortsList none = [] ∧
    scanPortsList (some scanSample) = [5173] ∧
    (∀ out : Option String, (scanPortsList out).Nodup ∧
       ∀ p ∈ scanPortsList out, 1024 < p ∧ p ≠ 3000 ∧ p ≠ 3001) := by
  refine ⟨rfl, by decide, ?_⟩
  intro out
  cases out with
  | none => exact ⟨List.nodup_nil, by simp [scanPortsList]⟩
  | some o =>
    exact scanFold_inv (splitOnChar '\n' o.data) [] List.nodup_nil (by simp)

/-- Witness for C8: the sample scan reports exactly `[5173]`, and 5173
itself satisfies the exclusion filter's guarantees. -/
theorem port_scan_filter_witness :
    scanPortsList (some scanSample) = [5173] ∧
    (1024 < 5173 ∧ 5173 ≠ 3000 ∧ 5173 ≠ 3001) := by
  refine ⟨port_scan_filter.2.1, ?_⟩
  refine (port_scan_filter.2.2 (some scanSample)).2 5173 ?_
  rw [port_scan_filter.2.1]
  simp

theorem cdTargetOf_npm_start (h : String) : cdTargetOf h "npm start" = none := by
  unfold cdTargetOf
  rw [if_neg]
  intro hor
  revert hor
  decide

theorem applyAlias_npm_start : applyAlias (jsTrim "npm start") = "npm start" := by decide

theorem npm_spawn_result (env : Env) (m : Sessions) (sid : String) (s : Session)
    (t2 : String) (evs1 : List Ev)
    (hs : List.lookup sid m = some s) (hsp : env.spawnOk = true)
    (hr : npmRewrite env s (applyAlias (jsTrim "npm start")) = (t2, evs1))
    (hct : cdTargetOf env.homedir t2 = none)
    (hcl : ¬ (t2 = "cls" ∨ t2 = "clear")) :
    execute env m sid "npm start" =
      (setSession m sid { s with pty := some (), initialOutputReceived := false },
       evs1 ++ [Ev.spawnEv (shellOf env) (shellArgs env t2) s.cwd, Ev.statusEv true]) := by
  rw [execute_other_general env m sid s "npm start" t2 evs1 hs (by decide) hr hct]
  rw [if_neg hcl, if_pos hsp]

/-- C7: for the exact input `npm start`: a manifest with a `dev` script but
no `start` script rewrites the executed command to `npm run dev` with
exactly one informational notice; a manifest with a `start` script, a
missing manifest, or an unparseable manifest leaves the command unmodified
with no notice and no error. -/
theorem npm_start_rewrite (env : Env) (m : Sessions) (sid : String) (s : Session)
    (hs : List.lookup sid m = some s) (hsp : env.spawnOk = true) :
    (∀ pkg sc, env.pkgFile (pathJoin s.cwd "package.json") = some (some pkg) →
      pkg.scripts = some sc → sc.hasStart = false → sc.hasDev = true →
      execute env m sid "npm start" =
        (setSession m sid { s with pty := some (), initialOutputReceived := false },
         [Ev.output rewriteNotice,
          Ev.spawnEv (shellOf env) (shellArgs env "npm run dev") s.cwd,
          Ev.statusEv true])) ∧
    (∀ pkg sc, env.pkgFile (pathJoin s.cwd "package.json") = some (some pkg) →
      pkg.scripts = some sc → sc.hasStart = true →
      execute env m sid "npm start" =
        (setSession m sid { s with pty := some (), initialOutputReceived := false },
         [Ev.spawnEv (shellOf env) (shellArgs env "npm start") s.cwd,
          Ev.statusEv true])) ∧
    (env.pkgFile (pathJoin s.cwd "package.json") = none →
      execute env m sid "npm start" =
        (setSession m sid { s with pty := some (), initialOutputReceived := false },
         [Ev.spawnEv (shellOf env) (shellArgs env "npm start") s.cwd,
          Ev.statusEv true])) ∧
    (env.pkgFile (pathJoin s.cwd "package.json") = some none →
      execute env m sid "npm start" =
        (setSession m sid { s with pty := some (), initialOutputReceived := false },
         [Ev.spawnEv (shellOf env) (shellArgs env "npm start") s.cwd,
          Ev.statusEv true])) := by
  refine ⟨?_, ?_, ?_, ?_⟩
  · intro pkg sc hp hsc hstart hdev
    have hr : npmRewrite env s (applyAlias (jsTrim "npm start"))
        = ("npm run dev", [Ev.output rewriteNotice]) := by
      rw [applyAlias_npm_start]
      unfold npmRewrite
      rw [if_pos rfl, hp]
      simp only []
      rw [hsc]
      simp only []
      rw [if_pos (by simp [hstart, hdev])]
    rw [npm_spawn_result env m sid s "npm run dev" [Ev.output rewriteNotice]
      hs hsp hr (cdTargetOf_npm_run_dev env.homedir) (by decide)]
    rfl
  · intro pkg sc hp hsc hstart
    have hr : npmRewrite env s (applyAlias (jsTrim "npm start")) = ("npm start", []) := by
      rw [applyAlias_npm_start]
      unfold npmRewrite
      rw [if_pos rfl, hp]
      simp only []
      rw [hsc]
      simp only []
      rw [if_neg (by simp [hstart])]
    rw [npm_spawn_result env m sid s "npm start" [] hs hsp hr
      (cdTargetOf_npm_start env.homedir) (by decide)]
    rfl
  · intro hp
    have hr : npmRewrite env s (applyAlias (jsTrim "npm start")) = ("npm start", []) := by
      rw [applyAlias_npm_start]
      unfold npmRewrite
      rw [if_pos rfl, hp]
    rw [npm_spawn_result env m sid s "npm start" [] hs hsp hr
      (cdTargetOf_npm_start env.homedir) (by decide)]
    rfl
  · intro hp
    have hr : npmRewrite env s (applyAlias (jsTrim "npm start")) = ("npm start", []) := by
      rw [applyAlias_npm_start]
      unfold npmRewrite
      rw [if_pos rfl, hp]
    rw [npm_spawn_result env m sid s "npm start" [] hs hsp hr
      (cdTargetOf_npm_start env.homedir) (by decide)]
    rfl

/-- Witness for C7: all four manifest situations at concrete environments. -/
theorem npm_start_rewrite_witness :
    execute envDev [("s1", anonSession)] "s1" "npm start"
      = ([("s1", { anonSession with pty := some (), initialOutputReceived := false })],
         [Ev.output rewriteNotice, Ev.spawnEv "bash" ["-c", "npm run dev"]
            "/tmp/teachgrid-workspace/anonymous", Ev.statusEv true]) ∧
    execute envBoth [("s1", anonSession)] "s1" "npm start"
      = ([("s1", { anonSession with pty := some (), initialOutputReceived := false })],
         [Ev.spawnEv "bash" ["-c", "npm start"]
            "/tmp/teachgrid-workspace/anonymous", Ev.statusEv true]) ∧
    execute envW [("s1", anonSession)] "s1" "npm start"
      = ([("s1", { anonSession with pty := some (), initialOutputReceived := false })],
         [Ev.spawnEv "bash" ["-c", "npm start"]
            "/tmp/teachgrid-workspace/anonymous", Ev.statusEv true]) ∧
    execute envBad [("s1", anonSession)] "s1" "npm start"
      = ([("s1", { anonSession with pty := some (), initialOutputReceived := false })],
         [Ev.spawnEv "bash" ["-c", "npm start"]
            "/tmp/teachgrid-workspace/anonymous", Ev.statusEv true]) := by
  refine ⟨?_, ?_, ?_, ?_⟩
  · rw [(npm_start_rewrite envDev [("s1", anonSession)] "s1" anonSession (by decide)
      (by decide)).1 ⟨some ⟨false, true⟩⟩ ⟨false, true⟩ (by decide) rfl rfl rfl]
    decide
  · rw [(npm_start_rewrite envBoth [("s1", anonSession)] "s1" anonSession (by decide)
      (by decide)).2.1 ⟨some ⟨true, true⟩⟩ ⟨true, true⟩ (by decide) rfl rfl]
    decide
  · rw [(npm_start_rewrite envW [("s1", anonSession)] "s1" anonSession (by decide)
      (by decide)).2.2.1 (by decide)]
    decide
  · rw [(npm_start_rewrite envBad [("s1", anonSession)] "s1" anonSession (by decide)
      (by decide)).2.2.2 (by decide)]
    decide

/-- C6: bare `cd` targets the home directory; whenever the home directory
does not resolve to a path with `projectRoot` as a prefix (the normal case,
the root living under the OS temporary directory), bare `cd` is always
rejected with the access-denied notice and the registry is unchanged. -/
theorem bare_cd_rejected (env : Env) (m : Sessions) (sid : String) (s : Session)
    (cmd : String)
    (hs : List.lookup sid m = some s)
    (hcmd : jsTrim cmd = "cd")
    (hq : quoteStrip env.homedir.data = env.homedir.data)
    (hh : jsStartsWith (resolvePath s.cwd env.homedir) s.projectRoot = false) :
    cdTargetOf env.homedir "cd" = some env.homedir ∧
    execute env m sid cmd = (m, [Ev.output denialMsg]) := by
  have hct : cdTargetOf env.homedir "cd" = some env.homedir := by
    unfold cdTargetOf
    rw [if_pos (Or.inr rfl)]
    show some (⟨quoteStrip env.homedir.data⟩ : String) = some env.homedir
    rw [hq]
  refine ⟨hct, ?_⟩
  have ht : ¬ jsTrim cmd = "" := by rw [hcmd]; decide
  have hr : npmRewrite env s (applyAlias (jsTrim cmd)) = ("cd", []) := by
    rw [hcmd]
    have ha : applyAlias "cd" = "cd" := by decide
    rw [ha]
    unfold npmRewrite
    rw [if_neg (by decide)]
  rw [execute_cd_general env m sid s cmd "cd" env.homedir [] hs ht hr hct]
  rw [if_pos (by simp [hh])]
  simp

/-- Witness for C6: under `envW` (home `/root`, anonymous root under
`/tmp`), bare `cd` is denied and changes nothing. -/
theorem bare_cd_rejected_witness :
    cdTargetOf "/root" "cd" = some "/root" ∧
    execute envW [("s1", anonSession)] "s1" "cd"
      = ([("s1", anonSession)], [Ev.output denialMsg]) :=
  bare_cd_rejected envW [("s1", anonSession)] "s1" anonSession "cd"
    (by decide) (by decide) (by decide) (by decide)

theorem splitOnChar_no_sep (sep : Char) (cs : List Char) :
    ∀ p ∈ splitOnChar sep cs, sep ∉ p := by
  induction cs with
  | nil =>
    intro p hp
    simp only [splitOnChar, List.mem_singleton] at hp
    subst hp
    simp
  | cons c rest ih =>
    intro p hp
    simp only [splitOnChar] at hp
    by_cases hc : c = sep
    · rw [if_pos hc] at hp
      rcases List.mem_cons.mp hp with rfl | hp
      · simp
      · exact ih p hp
    · rw [if_neg hc] at hp
      cases hr : splitOnChar sep rest with
      | nil =>
        rw [hr] at hp
        simp only [List.mem_singleton] at hp
        subst hp
        simpa using Ne.symm hc
      | cons q qs =>
        rw [hr] at hp
        rcases List.mem_cons.mp hp with rfl | hp
        · intro hmem
          rcases List.mem_cons.mp hmem with rfl | hmem
          · exact hc rfl
          · exact ih q (hr ▸ List.mem_cons_self q qs) hmem
        · exact ih p (hr ▸ List.mem_cons_of_mem q hp)

theorem splitSlash_good (cs : List Char) :
    ∀ p ∈ splitSlash cs, ¬ p = [] ∧ '/' ∉ p := by
  intro p hp
  unfold splitSlash at hp
  have h1 := List.mem_filter.mp hp
  refine ⟨by simpa using h1.2, splitOnChar_no_sep '/' cs p h1.1⟩

theorem normComps_mem (l : List (List Char)) :
    ∀ acc, ∀ p ∈ normComps acc l, p ∈ acc ∨ p ∈ l := by
  induction l with
  | nil =>
    intro acc p hp
    exact Or.inl hp
  | cons c rest ih =>
    intro acc p hp
    unfold normComps at hp
    by_cases h1 : c = ['.']
    · rw [if_pos h1] at hp
      rcases ih acc p hp with h | h
      · exact Or.inl h
      · exact Or.inr (List.mem_cons_of_mem c h)
    · rw [if_neg h1] at hp
      by_cases h2 : c = ['.', '.']
      · rw [if_pos h2] at hp
        rcases ih acc.dropLast p hp with h | h
        · exact Or.inl (List.dropLast_subset acc h)
        · exact Or.inr (List.mem_cons_of_mem c h)
      · rw [if_neg h2] at hp
        rcases ih (acc ++ [c]) p hp with h | h
        · rcases List.mem_append.mp h with h | h
          · exact Or.inl h
          · simp only [List.mem_singleton] at h
            exact Or.inr (by rw [h]; exact List.mem_cons_self c rest)
        · exact Or.inr (List.mem_cons_of_mem c h)

theorem dropCommon_snd_mem (a : List (List Char)) :
    ∀ b, ∀ p ∈ (dropCommon a b).2, p ∈ b := by
  induction a with
  | nil =>
    intro b p hp
    exact hp
  | cons x as ih =>
    intro b p hp
    cases b with
    | nil =>
      simp only [dropCommon] at hp
      cases hp
    | cons y bs =>
      unfold dropCommon at hp
      by_cases hxy : x = y
      · rw [if_pos hxy] at hp
        exact List.mem_cons_of_mem y (ih bs p hp)
      · rw [if_neg hxy] at hp
        exact hp

theorem joinWith_head_ne (l : List (List Char))
    (hgood : ∀ p ∈ l, ¬ p = [] ∧ '/' ∉ p) :
    ∀ c, (joinWith '/' l).head? = some c → ¬ c = '/' := by
  intro c hc
  cases l with
  | nil => cases hc
  | cons p ps =>
    have hp := hgood p (List.mem_cons_self p ps)
    cases hpc : p with
    | nil => exact absurd hpc hp.1
    | cons d ds =>
      have hd : c = d := by
        cases ps with
        | nil =>
          simp only [joinWith, hpc] at hc
          cases hc
          rfl
        | cons q qs =>
          simp only [joinWith, hpc, List.cons_append] at hc
          cases hc
          rfl
      subst hd
      intro hslash
      exact hp.2 (by rw [hpc, hslash]; exact List.mem_cons_self '/' ds)

theorem relativePath_head (f t : String) :
    ∀ c, (relativePath f t).data.head? = some c → ¬ c = '/' := by
  intro c hc
  unfold relativePath at hc
  refine joinWith_head_ne _ ?_ c hc
  intro p hp
  rcases List.mem_append.mp hp with hp | hp
  · rcases List.mem_map.mp hp with ⟨_, _, h⟩
    subst h
    refine ⟨by simp, by simp⟩
  · have h1 := dropCommon_snd_mem _ _ p hp
    rcases normComps_mem _ [] p h1 with h | h
    · cases h
    · exact splitSlash_good t.data p h

theorem resolvePath_head (cwd t : String) :
    (resolvePath cwd t).data.head? = some '/' := by
  unfold resolvePath
  by_cases h : t.data.head? = some '/'
  · rw [if_pos h]
    rfl
  · rw [if_neg h]
    rfl

theorem relativePath_ne_resolvePath (f cwd t : String) :
    ¬ relativePath f (resolvePath cwd t) = resolvePath cwd t := by
  intro h
  have h1 := resolvePath_head cwd t
  have h2 : (relativePath f (resolvePath cwd t)).data.head? = some '/' := by
    rw [h]
    exact h1
  exact relativePath_head f (resolvePath cwd t) '/' h2 rfl

/-- C4: a `cd` whose resolved target passes the sandbox check: when the
target is not readable, a no-such-directory notice is emitted and the
registry is unchanged; when it is readable, `cwd` becomes the resolved path
and the client is notified with the path relative to `projectRoot`, which
is never the absolute resolved path itself; in both cases the emitted
events contain no spawn and the process handle is untouched. -/
theorem cd_inside_sandbox (env : Env) (m : Sessions) (sid : String) (s : Session)
    (cmd t2 tgt : String) (evs1 : List Ev)
    (hs : List.lookup sid m = some s)
    (ht : ¬ jsTrim cmd = "")
    (hr : npmRewrite env s (applyAlias (jsTrim cmd)) = (t2, evs1))
    (hc : cdTargetOf env.homedir t2 = some tgt)
    (hpre : jsStartsWith (resolvePath s.cwd tgt) s.projectRoot = true) :
    (env.accessOk (resolvePath s.cwd tgt) = false →
      execute env m sid cmd = (m, [Ev.output (noSuchMsg tgt)])) ∧
    (env.accessOk (resolvePath s.cwd tgt) = true →
      execute env m sid cmd =
        (setSession m sid { s with cwd := resolvePath s.cwd tgt },
         [Ev.cwdEv (relativePath s.projectRoot (resolvePath s.cwd tgt))]) ∧
      ¬ relativePath s.projectRoot (resolvePath s.cwd tgt) = resolvePath s.cwd tgt) := by
  have hnil := cd_evs1_nil env s cmd t2 tgt evs1 hr hc
  subst hnil
  rw [execute_cd_general env m sid s cmd t2 tgt [] hs ht hr hc]
  rw [if_neg (by simp [hpre])]
  constructor
  · intro hacc
    rw [if_pos (by simp [hacc])]
    simp
  · intro hacc
    rw [if_neg (by simp [hacc])]
    exact ⟨by simp, relativePath_ne_resolvePath s.projectRoot s.cwd tgt⟩

/-- Witness for C4: under `envW` a readable `cd sub` updates the cwd and
notifies `sub`; with no readable paths the same command reports a
no-such-directory notice and changes nothing. -/
theorem cd_inside_sandbox_witness :
    execute envNoFs [("s1", anonSession)] "s1" "cd sub"
      = ([("s1", anonSession)], [Ev.output (noSuchMsg "sub")]) ∧
    execute envW [("s1", anonSession)] "s1" "cd sub"
      = ([("s1", anonSubSession)], [Ev.cwdEv "sub"]) := by
  constructor
  · have h := (cd_inside_sandbox envNoFs [("s1", anonSession)] "s1" anonSession
      "cd sub" "cd sub" "sub" [] (by decide) (by decide) (by decide) (by decide)
      (by decide)).1 (by decide)
    rw [h]
  · have h := ((cd_inside_sandbox envW [("s1", anonSession)] "s1" anonSession
      "cd sub" "cd sub" "sub" [] (by decide) (by decide) (by decide) (by decide)
      (by decide)).2 (by decide)).1
    rw [h]
    decide

theorem createSession_preserves (env : Env) (m : Sessions) (sid : String)
    (u : Option String) (k : String) (s : Session)
    (hk : List.lookup k m = some s) :
    List.lookup k (createSession env m sid u).1 = some s := by
  by_cases hks : k = sid
  · subst hks
    unfold createSession
    rw [hk]
    exact hk
  · rw [createSession_lookup_ne env m sid k u hks]
    exact hk

theorem execute_projectRoot (env : Env) (m : Sessions) (sid : String)
    (cmd : String) (k : String) (s : Session)
    (hk : List.lookup k m = some s) :
    ∃ s', List.lookup k (execute env m sid cmd).1 = some s' ∧
          s'.projectRoot = s.projectRoot := by
  have hpres := createSession_preserves env m sid none k s hk
  have hlook := createSession_lookup env m sid none
  unfold execute
  cases hcs : createSession env m sid none with
  | mk m1 p =>
    cases p with
    | mk s1 evs0 =>
      rw [hcs] at hpres hlook
      simp only at hpres hlook
      simp only []
      have hset : ∀ s2 : Session, s2.projectRoot = s1.projectRoot →
          ∃ s', List.lookup k (setSession m1 sid s2) = some s' ∧
                s'.projectRoot = s.projectRoot := by
        intro s2 h2
        by_cases hks : k = sid
        · subst hks
          refine ⟨s2, ?_, ?_⟩
          · rw [lookup_setSession_self, hpres]
            rfl
          · rw [h2]
            have hss : s1 = s := by
              rw [hlook] at hpres
              exact Option.some.inj hpres
            rw [hss]
        · refine ⟨s, ?_, rfl⟩
          rw [lookup_setSession_ne m1 sid k s2 hks]
          exact hpres
      by_cases ht : jsTrim cmd = ""
      · rw [if_pos ht]
        exact ⟨s, hpres, rfl⟩
      · rw [if_neg ht]
        cases hnr : npmRewrite env s1 (applyAlias (jsTrim cmd)) with
        | mk t2 evs1 =>
          cases hct : cdTargetOf env.homedir t2 with
          | some tgt =>
            simp only []
            by_cases hden : ¬ jsStartsWith (resolvePath s1.cwd tgt) s1.projectRoot
            · rw [if_pos hden]
              exact ⟨s, hpres, rfl⟩
            · rw [if_neg hden]
              by_cases hacc : ¬ env.accessOk (resolvePath s1.cwd tgt)
              · rw [if_pos hacc]
                exact ⟨s, hpres, rfl⟩
              · rw [if_neg hacc]
                exact hset { s1 with cwd := resolvePath s1.cwd tgt } rfl
          | none =>
            simp only []
            by_cases hcl : t2 = "cls" ∨ t2 = "clear"
            · rw [if_pos hcl]
              exact ⟨s, hpres, rfl⟩
            · rw [if_neg hcl]
              by_cases hsp : env.spawnOk
              · rw [if_pos hsp]
                exact hset { s1 with pty := some (), initialOutputReceived := false } rfl
              · rw [if_neg hsp]
                exact ⟨s, hpres, rfl⟩

theorem handleInput_projectRoot (env : Env) (m : Sessions) (sid : String)
    (d : String) (k : String) (s : Session)
    (hk : List.lookup k m = some s) :
    ∃ s', List.lookup k (handleInput env m sid d).1 = some s' ∧
          s'.projectRoot = s.projectRoot := by
  have hpres := createSession_preserves env m sid none k s hk
  unfold handleInput
  cases hcs : createSession env m sid none with
  | mk m1 p =>
    cases p with
    | mk s1 evs0 =>
      rw [hcs] at hpres
      simp only at hpres
      by_cases hp : s1.pty.isSome
      · simp only [if_pos hp]
        exact ⟨s, hpres, rfl⟩
      · simp only [if_neg hp]
        have h := execute_projectRoot env m1 sid d k s hpres
        cases hex : execute env m1 sid d with
        | mk m2 evs2 =>
          rw [hex] at h
          simp only at h
          exact h

/-- C3: a session created lazily by input dispatch (no user identity) gets
`projectRoot = workspaceRoot env "anonymous"` — the shared directory
`tmpdir/teachgrid-workspace/anonymous`; consequently any two sessions
created this way, for any client identities, share the same sandbox root. -/
theorem anonymous_shared_root :
    (∀ (env : Env) (m : Sessions) (sid d : String), List.lookup sid m = none →
      ∃ s, List.lookup sid (handleInput env m sid d).1 = some s ∧
           s.projectRoot = workspaceRoot env "anonymous") ∧
    (∀ (env : Env) (m m' : Sessions) (sid sid' d d' : String),
      List.lookup sid m = none → List.lookup sid' m' = none →
      ∃ s s', List.lookup sid (handleInput env m sid d).1 = some s ∧
              List.lookup sid' (handleInput env m' sid' d').1 = some s' ∧
              s.projectRoot = s'.projectRoot) := by
  have part1 : ∀ (env : Env) (m : Sessions) (sid d : String),
      List.lookup sid m = none →
      ∃ s, List.lookup sid (handleInput env m sid d).1 = some s ∧
           s.projectRoot = workspaceRoot env "anonymous" := by
    intro env m sid d hnone
    have hs0 : List.lookup sid (createSession env m sid none).1
        = some (createSession env m sid none).2.1 := createSession_lookup env m sid none
    unfold handleInput
    rw [createSession_of_none env m sid hnone]
    simp only []
    rw [if_neg (by simp)]
    have hk : List.lookup sid
        ((sid, (⟨workspaceRoot env "anonymous", workspaceRoot env "anonymous",
          none, false⟩ : Session)) :: m)
        = some ⟨workspaceRoot env "anonymous", workspaceRoot env "anonymous",
          none, false⟩ := lookup_cons_self sid _ m
    have h := execute_projectRoot env _ sid d sid _ hk
    cases hex : execute env ((sid, (⟨workspaceRoot env "anonymous",
        workspaceRoot env "anonymous", none, false⟩ : Session)) :: m) sid d with
    | mk m2 evs2 =>
      rw [hex] at h
      simp only at h
      exact h
  refine ⟨part1, ?_⟩
  intro env m m' sid sid' d d' h1 h2
  obtain ⟨s, hs, hr⟩ := part1 env m sid d h1
  obtain ⟨s', hs', hr'⟩ := part1 env m' sid' d' h2
  exact ⟨s, s', hs, hs', by rw [hr, hr']⟩

/-- Witness for C3: two different fresh clients both end with the shared
anonymous root after dispatching their first input. -/
theorem anonymous_shared_root_witness :
    (List.lookup "a" (handleInput envW [] "a" "ls").1).map Session.projectRoot
      = some "/tmp/teachgrid-workspace/anonymous" ∧
    (List.lookup "b" (handleInput envW [] "b" "cd sub").1).map Session.projectRoot
      = some "/tmp/teachgrid-workspace/anonymous" := by
  constructor
  · obtain ⟨s, hs, hr⟩ := anonymous_shared_root.1 envW [] "a" "ls" rfl
    rw [hs]
    show some s.projectRoot = some "/tmp/teachgrid-workspace/anonymous"
    rw [hr]
    decide
  · obtain ⟨s, hs, hr⟩ := anonymous_shared_root.1 envW [] "b" "cd sub" rfl
    rw [hs]
    show some s.projectRoot = some "/tmp/teachgrid-workspace/anonymous"
    rw [hr]
    decide

theorem busyFold_append (b : Bool) (l1 l2 : List Ev) :
    busyFold b (l1 ++ l2) = busyFold (busyFold b l1) l2 := by
  unfold busyFold
  exact List.foldl_append _ _ _ _

theorem busyFold_statusFree (b : Bool) (evs : List Ev)
    (h : ∀ e ∈ evs, statusOf e = none) : busyFold b evs = b := by
  induction evs generalizing b with
  | nil => rfl
  | cons e rest ih =>
    have he := h e (List.mem_cons_self e rest)
    unfold busyFold
    simp only [List.foldl_cons, he]
    exact ih b (fun e' h' => h e' (List.mem_cons_of_mem e h'))

theorem createSession_statusFree (env : Env) (m : Sessions) (sid : String)
    (u : Option String) :
    ∀ e ∈ (createSession env m sid u).2.2, statusOf e = none := by
  rcases createSession_evs env m sid u with h | h <;> rw [h] <;> simp [statusOf]

theorem npmRewrite_statusFree (env : Env) (s : Session) (cmd t2 : String)
    (evs : List Ev) (h : npmRewrite env s cmd = (t2, evs)) :
    ∀ e ∈ evs, statusOf e = none := by
  rcases npmRewrite_cases env s cmd t2 evs h with ⟨_, h2⟩ | ⟨_, h2, _⟩ <;>
    rw [h2] <;> simp [statusOf]

theorem ptyAttached_setSession (m : Sessions) (sid : String) (s' : Session)
    (s : Session) (hl : List.lookup sid m = some s) :
    ptyAttached (setSession m sid s') sid = s'.pty.isSome := by
  unfold ptyAttached
  rw [lookup_setSession_self, hl]
  rfl

theorem execute_busy (env : Env) (m : Sessions) (sid : String) (cmd : String) :
    busyFold (ptyAttached m sid) (execute env m sid cmd).2
      = ptyAttached (execute env m sid cmd).1 sid := by
  have hlook := createSession_lookup env m sid none
  have hpty := createSession_pty env m sid none
  have hsf := createSession_statusFree env m sid none
  unfold execute
  cases hcs : createSession env m sid none with
  | mk m1 p =>
    cases p with
    | mk s1 evs0 =>
      rw [hcs] at hlook hpty hsf
      simp only at hlook hpty hsf
      simp only []
      have hm1 : ptyAttached m1 sid = s1.pty.isSome := by
        unfold ptyAttached
        rw [hlook]
      by_cases ht : jsTrim cmd = ""
      · rw [if_pos ht]
        simp only []
        rw [busyFold_statusFree _ _ hsf, hm1]
        exact hpty.symm
      · rw [if_neg ht]
        cases hnr : npmRewrite env s1 (applyAlias (jsTrim cmd)) with
        | mk t2 evs1 =>
          have hsf1 := npmRewrite_statusFree env s1 _ t2 evs1 hnr
          have hfree : ∀ x : Ev, statusOf x = none →
              ∀ b, busyFold b (evs0 ++ evs1 ++ [x]) = b := by
            intro x hx b
            rw [busyFold_append, busyFold_append]
            rw [busyFold_statusFree _ _ hsf, busyFold_statusFree _ _ hsf1]
            simp [busyFold, hx]
          cases hct : cdTargetOf env.homedir t2 with
          | some tgt =>
            simp only []
            by_cases hden : ¬ jsStartsWith (resolvePath s1.cwd tgt) s1.projectRoot
            · rw [if_pos hden]
              simp only []
              rw [hfree (Ev.output denialMsg) rfl, hm1]
              exact hpty.symm
            · rw [if_neg hden]
              by_cases hacc : ¬ env.accessOk (resolvePath s1.cwd tgt)
              · rw [if_pos hacc]
                simp only []
                rw [hfree (Ev.output (noSuchMsg tgt)) rfl, hm1]
                exact hpty.symm
              · rw [if_neg hacc]
                simp only []
                rw [hfree (Ev.cwdEv (relativePath s1.projectRoot
                  (resolvePath s1.cwd tgt))) rfl]
                rw [ptyAttached_setSession m1 sid _ s1 hlook]
                exact hpty.symm
          | none =>
            simp only []
            by_cases hcl : t2 = "cls" ∨ t2 = "clear"
            · rw [if_pos hcl]
              simp only []
              rw [hfree (Ev.output clearSeq) rfl, hm1]
              exact hpty.symm
            · rw [if_neg hcl]
              by_cases hsp : env.spawnOk
              · rw [if_pos hsp]
                simp only []
                rw [ptyAttached_setSession m1 sid _ s1 hlook]
                rw [busyFold_append, busyFold_append]
                rfl
              · rw [if_neg hsp]
                simp only []
                rw [hfree (Ev.output (spawnFailMsg env)) rfl, hm1]
                exact hpty.symm

theorem handleInput_busy (env : Env) (m : Sessions) (sid : String) (d : String) :
    busyFold (ptyAttached m sid) (handleInput env m sid d).2
      = ptyAttached (handleInput env m sid d).1 sid := by
  have hlook := createSession_lookup env m sid none
  have hpty := createSession_pty env m sid none
  have hsf := createSession_statusFree env m sid none
  unfold handleInput
  cases hcs : createSession env m sid none with
  | mk m1 p =>
    cases p with
    | mk s1 evs0 =>
      rw [hcs] at hlook hpty hsf
      simp only at hlook hpty hsf
      have hm1 : ptyAttached m1 sid = s1.pty.isSome := by
        unfold ptyAttached
        rw [hlook]
      by_cases hp : s1.pty.isSome
      · simp only [if_pos hp]
        have hw : ∀ e ∈ writeIn m1 sid d, statusOf e = none := by
          unfold writeIn
          cases List.lookup sid m1 with
          | none => simp
          | some s2 =>
            by_cases h2 : s2.pty.isSome
            · simp [if_pos h2, statusOf]
            · simp [if_neg h2]
        rw [busyFold_append]
        rw [busyFold_statusFree _ _ hsf, busyFold_statusFree _ _ hw]
        rw [hm1]
        exact hpty.symm
      · simp only [if_neg hp]
        have hex2 := execute_busy env m1 sid d
        cases hex : execute env m1 sid d with
        | mk m2 evs2 =>
          rw [hex] at hex2
          simp only at hex2
          simp only []
          rw [busyFold_append, busyFold_statusFree _ _ hsf]
          rw [hm1, hpty] at hex2
          exact hex2

theorem processExit_busy (env : Env) (m : Sessions) (sid : String) :
    busyFold (ptyAttached m sid) (processExit env m sid).2
      = ptyAttached (processExit env m sid).1 sid := by
  unfold processExit
  cases hl : List.lookup sid m with
  | none => rfl
  | some s =>
    by_cases hp : s.pty.isSome
    · simp only [if_pos hp]
      rw [ptyAttached_setSession m sid _ s hl]
      rfl
    · simp only [if_neg hp]
      rfl

theorem resizeTerm_statusFree (m : Sessions) (sid : String) (c r : Nat) :
    ∀ e ∈ resizeTerm m sid c r, statusOf e = none := by
  unfold resizeTerm
  cases List.lookup sid m with
  | none => simp
  | some s =>
    by_cases hp : s.pty.isSome
    · simp [if_pos hp, statusOf]
    · simp [if_neg hp]

theorem stepOp_busy (env : Env) (sid : String) (m : Sessions) (op : Op) :
    busyFold (ptyAttached m sid) (stepOp env sid m op).2
      = ptyAttached (stepOp env sid m op).1 sid := by
  cases op with
  | input d => exact handleInput_busy env m sid d
  | exitPty => exact processExit_busy env m sid
  | resizeOp c r =>
    exact busyFold_statusFree _ _ (resizeTerm_statusFree m sid c r)

theorem runOps_busy (env : Env) (sid : String) (m : Sessions) (ops : List Op) :
    busyFold (ptyAttached m sid) (runOps env sid m ops).2
      = ptyAttached (runOps env sid m ops).1 sid := by
  induction ops generalizing m with
  | nil => rfl
  | cons op rest ih =>
    unfold runOps
    cases hst : stepOp env sid m op with
    | mk m1 evs1 =>
      simp only []
      cases hrn : runOps env sid m1 rest with
      | mk m2 evs2 =>
        simp only []
        rw [busyFold_append]
        have h1 := stepOp_busy env sid m op
        rw [hst] at h1
        simp only at h1
        rw [h1]
        have h2 := ih m1
        rw [hrn] at h2
        simp only at h2
        exact h2

/-- C5: a process handle is attached iff the session is busy: along every
operation sequence, folding the emitted busy/idle status notifications
always agrees with whether a handle is attached; dispatching input while a
handle is attached forwards the bytes verbatim to the process input stream
and never invokes the command interpreter, and dispatching input with no
handle attached is exactly the interpreter call. -/
theorem busy_iff_pty :
    (∀ (env : Env) (sid : String) (m : Sessions) (ops : List Op),
      busyFold (ptyAttached m sid) (runOps env sid m ops).2
        = ptyAttached (runOps env sid m ops).1 sid) ∧
    (∀ (env : Env) (m : Sessions) (sid : String) (s : Session) (d : String),
      List.lookup sid m = some s → s.pty.isSome = true →
      handleInput env m sid d = (m, [Ev.ptyWriteEv d])) ∧
    (∀ (env : Env) (m : Sessions) (sid : String) (s : Session) (d : String),
      List.lookup sid m = some s → s.pty = none →
      handleInput env m sid d = execute env m sid d) := by
  refine ⟨fun env sid m ops => runOps_busy env sid m ops, ?_, ?_⟩
  · intro env m sid s d hl hp
    unfold handleInput
    rw [createSession_of_some env m sid none s hl]
    simp only [if_pos hp]
    unfold writeIn
    rw [hl]
    simp [hp]
  · intro env m sid s d hl hp
    unfold handleInput
    rw [createSession_of_some env m sid none s hl]
    have hfalse : s.pty.isSome = false := by rw [hp]; rfl
    simp only []
    rw [if_neg (by rw [hfalse]; exact Bool.false_ne_true)]
    cases hex : execute env m sid d with
    | mk m2 evs2 => simp

/-- Witness for C5: a busy session forwards bytes verbatim; an idle session
hands the line to the interpreter; and the status-fold invariant holds on a
concrete run that spawns a process and sees it exit. -/
theorem busy_iff_pty_witness :
    handleInput envW [("s1", busySession)] "s1" "y\n"
      = ([("s1", busySession)], [Ev.ptyWriteEv "y\n"]) ∧
    handleInput envW [("s1", anonSession)] "s1" "ls"
      = execute envW [("s1", anonSession)] "s1" "ls" ∧
    busyFold (ptyAttached [] "s1")
        (runOps envW "s1" [] [Op.input "ls", Op.exitPty]).2
      = ptyAttached (runOps envW "s1" [] [Op.input "ls", Op.exitPty]).1 "s1" := by
  refine ⟨?_, ?_, ?_⟩
  · exact busy_iff_pty.2.1 envW [("s1", busySession)] "s1" busySession "y\n"
      (by decide) (by decide)
  · exact busy_iff_pty.2.2 envW [("s1", anonSession)] "s1" anonSession "ls"
      (by decide) (by decide)
  · exact busy_iff_pty.1 envW "s1" [] [Op.input "ls", Op.exitPty]

theorem mkString_data (l : List Char) : (String.mk l).data = l := rfl

theorem titleMatch_none (l : List Char) (h : ¬ l.head? = some '\x1b') :
    titleMatch l = none := by
  match l with
  | [] => rfl
  | [c1] => rfl
  | [c1, c2] => rfl
  | [c1, c2, c3] => rfl
  | c1 :: c2 :: c3 :: c4 :: rest =>
    unfold titleMatch
    simp only []
    rw [if_neg]
    intro hconj
    exact h (by rw [List.head?_cons, hconj.1])

theorem consumeTitle_count (l : List Char) :
    ∀ r, consumeTitle l = some r → r.count '\x1b' ≤ l.count '\x1b' := by
  induction l with
  | nil =>
    intro r h
    cases h
  | cons c rest ih =>
    intro r h
    unfold consumeTitle at h
    by_cases hc : c = '\x07'
    · rw [if_pos hc] at h
      cases h
      simp [List.count_cons]
    · rw [if_neg hc] at h
      refine le_trans (ih r h) ?_
      simp [List.count_cons]

theorem titleMatch_count (l r : List Char) (h : titleMatch l = some r) :
    r.count '\x1b' + 1 ≤ l.count '\x1b' := by
  match l with
  | [] => cases h
  | [c1] => cases h
  | [c1, c2] => cases h
  | [c1, c2, c3] => cases h
  | c1 :: c2 :: c3 :: c4 :: rest =>
    unfold titleMatch at h
    simp only [] at h
    by_cases hcond : c1 = '\x1b' ∧ c2 = ']' ∧ c3 = '0' ∧ c4 = ';'
    · rw [if_pos hcond] at h
      obtain ⟨h1, h2, h3, h4⟩ := hcond
      subst h1; subst h2; subst h3; subst h4
      have hcons := consumeTitle_count rest r h
      have hfive : List.count '\x1b' ('\x1b' :: ']' :: '0' :: ';' :: rest)
          = rest.count '\x1b' + 1 := by
        simp [List.count_cons]
      rw [hfive]
      omega
    · rw [if_neg hcond] at h
      cases h

theorem stripAuxF_no_esc (f : Nat) (l : List Char) (h : '\x1b' ∉ l) :
    stripAuxF f l = l := by
  induction f generalizing l with
  | zero => rfl
  | succ f ih =>
    cases l with
    | nil => rfl
    | cons c rest =>
      have hc : ¬ c = '\x1b' := by
        intro hceq
        subst hceq
        exact h (List.mem_cons_self _ _)
      simp only [stripAuxF]
      rw [titleMatch_none (c :: rest)
        (by rw [List.head?_cons]; simp [hc])]
      simp only []
      rw [ih rest (fun hm => h (List.mem_cons_of_mem _ hm))]

theorem stripAuxF_single (f : Nat) (l : List Char) (h : l.count '\x1b' ≤ 1) :
    stripAuxF f l = l ∨ '\x1b' ∉ stripAuxF f l := by
  induction f generalizing l with
  | zero => exact Or.inl rfl
  | succ f ih =>
    cases l with
    | nil => exact Or.inl rfl
    | cons c rest =>
      simp only [stripAuxF]
      cases hm : titleMatch (c :: rest) with
      | some r =>
        simp only []
        have hcount := titleMatch_count (c :: rest) r hm
        have hr0 : r.count '\x1b' = 0 := by omega
        have hnr : '\x1b' ∉ r := by
          rw [← List.count_eq_zero]
          exact hr0
        rw [stripAuxF_no_esc f r hnr]
        exact Or.inr hnr
      | none =>
        simp only []
        by_cases hc : c = '\x1b'
        · subst hc
          have hone : List.count '\x1b' ('\x1b' :: rest) = rest.count '\x1b' + 1 :=
            List.count_cons_self '\x1b' rest
          have hrest : rest.count '\x1b' = 0 := by
            rw [hone] at h
            omega
          have hnr : '\x1b' ∉ rest := by
            rw [← List.count_eq_zero]
            exact hrest
          rw [stripAuxF_no_esc f rest hnr]
          exact Or.inl rfl
        · have hcc : List.count '\x1b' (c :: rest) = rest.count '\x1b' :=
            List.count_cons_of_ne (Ne.symm hc) rest
          have hle : rest.count '\x1b' ≤ 1 := by
            rw [hcc] at h
            exact h
          rcases ih rest hle with h1 | h1
          · rw [h1]
            exact Or.inl rfl
          · refine Or.inr ?_
            intro hmem
            rcases List.mem_cons.mp hmem with heq | hmem
            · exact hc heq.symm
            · exact h1 hmem

/-- C10 counterexample: the always-on title strip is not idempotent — on
`"\x1b]\x1b]0;a\x070;x\x07"` one application yields `"\x1b]0;x\x07"` (a
new title sequence spliced together by the removal), and a second
application strips that too. -/
theorem strip_title_not_idempotent :
    ¬ stripTitleSeqs (stripTitleSeqs "\x1b]\x1b]0;a\x070;x\x07")
      = stripTitleSeqs "\x1b]\x1b]0;a\x070;x\x07" := by decide

/-- C10 (amended): the always-on title strip is idempotent on every chunk
containing at most one ESC character; in general a second application can
differ, because removing a match can splice together a new title sequence. -/
theorem strip_title_idempotent_single_esc (s : String)
    (h : s.data.count '\x1b' ≤ 1) :
    stripTitleSeqs (stripTitleSeqs s) = stripTitleSeqs s := by
  unfold stripTitleSeqs
  simp only [mkString_data]
  rcases stripAuxF_single s.data.length s.data h with h1 | h1
  · rw [h1, h1]
  · rw [stripAuxF_no_esc _ _ h1]

/-- Witness for the amended C10 at a concrete single-ESC chunk. -/
theorem strip_title_idempotent_single_esc_witness :
    "abc\x1b]0;t\x07def".data.count '\x1b' ≤ 1 ∧
    stripTitleSeqs (stripTitleSeqs "abc\x1b]0;t\x07def")
      = stripTitleSeqs "abc\x1b]0;t\x07def" :=
  ⟨by decide, strip_title_idempotent_single_esc "abc\x1b]0;t\x07def" (by decide)⟩
